import Mathlib

/-!
Shallow embedding of the request-to-file resolution and streaming pipeline of
`src/http-fs-server.ts` (class `HttpFsServer`), together with proofs checking
the natural-language specification's claims against it.

Modelling conventions:
* JavaScript strings are Lean `String`s; the handful of JS string operations
  the source uses (`toLowerCase`, `substring(1)`, `indexOf('..') === -1`,
  `replace(/c/g, r)`, the global `escape`) are modelled explicitly below on
  the underlying character lists.
* The filesystem is an immutable association list from path strings to
  entries (regular file with its byte contents, or directory with its child
  names).  `fs.stat`, `fs.existsSync`, `fs.readdir` and a whole-file read of
  a `fs.createReadStream` are derived lookups on it.  A read stream on a
  path that has vanished yields ENOENT; on a directory it yields a
  non-ENOENT error (EISDIR), matching the two error classes the source
  distinguishes.
* Node's `path.join`, `path.extname`, `url.parse(u).pathname` and JS
  `decodeURI` are external collaborators; they are modelled to their
  documented behaviour on the inputs the pipeline feeds them (no
  dot-segment normalisation in `pathJoin`: the `..` gate runs first, and no
  claim exercises dot segments post-join).
* The asynchronous responder is modelled as a fuel-indexed total function:
  the only re-entry (`respondNotFound` → `serveUrl`) consumes one unit of
  fuel, and a `none` result means the pipeline was still re-entering when
  the fuel ran out (the source has no bound at all there).
-/

/-- Model of `s.toLowerCase()` (character-wise lowering; the source only
feeds it ASCII extension strings). -/
def jsToLowerCase (s : String) : String := ⟨s.data.map Char.toLower⟩

/-- Model of `s.substring 1` on JS strings: drop the first code unit. -/
def jsSubstringFromOne (s : String) : String := ⟨s.data.drop 1⟩

/-- Model of `s.replace(/c/g, repl)` for a single-character pattern `c`:
every occurrence of `c` is replaced by `repl`, in one left-to-right pass. -/
def jsReplaceChar (c : Char) (repl : List Char) : List Char → List Char
  | [] => []
  | a :: as => (if a = c then repl else [a]) ++ jsReplaceChar c repl as

/-- Substring test on character lists (`pat` occurs contiguously). -/
def listContainsPattern (pat : List Char) : List Char → Bool
  | [] => pat.isEmpty
  | c :: rest => pat.isPrefixOf (c :: rest) || listContainsPattern pat rest

/-- Model of `s.indexOf(pat) !== -1`: `pat` occurs as a substring of `s`. -/
def strContains (s pat : String) : Bool := listContainsPattern pat.data s.data

/-- Value of a hexadecimal digit character, if it is one. -/
def hexDigitVal (c : Char) : Option Nat :=
  if '0' ≤ c ∧ c ≤ '9' then some (c.toNat - 48)
  else if 'A' ≤ c ∧ c ≤ 'F' then some (c.toNat - 55)
  else if 'a' ≤ c ∧ c ≤ 'f' then some (c.toNat - 87)
  else none

/-- Characters that JS `decodeURI` leaves percent-encoded. -/
def uriReserved (c : Char) : Bool :=
  c = ';' ∨ c = '/' ∨ c = '?' ∨ c = ':' ∨ c = '@' ∨ c = '&' ∨
  c = '=' ∨ c = '+' ∨ c = '$' ∨ c = ',' ∨ c = '#'

/-- Model of JS `decodeURI` on the character list: percent-decodes `%XX`
triples except those encoding reserved characters.  Single-byte sequences
only, and malformed escapes are passed through rather than throwing
`URIError` (the pipeline's inputs in this development contain no `%`). -/
def decodeURIList : List Char → List Char
  | [] => []
  | c :: rest =>
    if c = '%' then
      match rest with
      | h :: l :: rest2 =>
        match hexDigitVal h, hexDigitVal l with
        | some a, some b =>
          let d := Char.ofNat (16 * a + b)
          if uriReserved d then '%' :: h :: l :: decodeURIList rest2
          else d :: decodeURIList rest2
        | _, _ => '%' :: h :: l :: decodeURIList rest2
      | _ => '%' :: rest
    else c :: decodeURIList rest

/-- Model of JS `decodeURI` on strings. -/
def jsDecodeURI (s : String) : String := ⟨decodeURIList s.data⟩

/-- Uppercase hexadecimal digit for a value below 16. -/
def hexDigitUpper (n : Nat) : Char :=
  if n < 10 then Char.ofNat (48 + n) else Char.ofNat (55 + n)

/-- Model of the JS global `escape` on one character: alphanumerics and
`@*_+-./` pass through, other code points below 256 become `%XX`, larger
ones become `%uXXXX` (uppercase hex). -/
def jsEscapeChar (c : Char) : List Char :=
  let n := c.toNat
  if (48 ≤ n ∧ n ≤ 57) ∨ (65 ≤ n ∧ n ≤ 90) ∨ (97 ≤ n ∧ n ≤ 122) ∨
      c = '@' ∨ c = '*' ∨ c = '_' ∨ c = '+' ∨ c = '-' ∨ c = '.' ∨ c = '/' then
    [c]
  else if n < 256 then
    ['%', hexDigitUpper (n / 16), hexDigitUpper (n % 16)]
  else
    ['%', 'u', hexDigitUpper (n / 4096 % 16), hexDigitUpper (n / 256 % 16),
      hexDigitUpper (n / 16 % 16), hexDigitUpper (n % 16)]

/-- Model of the JS global `escape` used for anchor hrefs in the listing. -/
def jsEscape (s : String) : String := ⟨(s.data.map jsEscapeChar).flatten⟩

/-- Model of Node `path.join a b` restricted to the inputs this pipeline
produces: the two pieces are glued with exactly one `/` separator.  Node's
additional dot-segment normalisation is not modelled; the `..` safety gate
runs on the raw URL before any join, and no claim feeds dot segments in. -/
def pathJoin (a b : String) : String :=
  if a = "" then b
  else if b = "" then a
  else ⟨(a.data.reverse.dropWhile (· = '/')).reverse ++ '/' :: b.data.dropWhile (· = '/')⟩

/-- Model of Node `path.extname`: the suffix of the basename from its last
dot, or `""` when the basename has no dot, starts with its only dot, or is
`.` or `..`. -/
def extname (p : String) : String :=
  let base := (p.data.reverse.takeWhile (· ≠ '/')).reverse
  if base = ['.'] ∨ base = ['.', '.'] then ""
  else
    let afterDot := base.reverse.takeWhile (· ≠ '.')
    if afterDot.length = base.length then ""            -- no dot at all
    else if afterDot.length + 1 = base.length ∧ base.headD ' ' = '.' then ""
    else ⟨'.' :: afterDot.reverse⟩

/-- Model of legacy `url.parse(requestUrl).pathname` for server request
URLs: the part of the string before the first `?` or `#` (query and
fragment discarded). -/
def urlParsePathname (requestUrl : String) : String :=
  ⟨requestUrl.data.takeWhile (fun c => c ≠ '?' ∧ c ≠ '#')⟩

/-- Filesystem entry: a regular file with its on-disk byte contents, or a
directory with the names of its immediate children. -/
inductive FsEntry
  | file (bytes : List Nat)
  | directory (children : List String)
deriving DecidableEq

/-- Whether an entry is a directory (`stats.isDirectory()`). -/
def FsEntry.isDir : FsEntry → Bool
  | .file _ => false
  | .directory _ => true

/-- An immutable snapshot of the filesystem: association list from absolute
path strings to entries. -/
def FileSystem := List (String × FsEntry)

/-- Model of `fs.stat` / `fs.statSync`: `none` is a stat error (ENOENT and
friends), `some` carries the entry. -/
def fsStat (fs : FileSystem) (p : String) : Option FsEntry :=
  List.lookup p fs

/-- Model of `fs.existsSync`. -/
def fsExistsSync (fs : FileSystem) (p : String) : Bool :=
  (fsStat fs p).isSome

/-- Model of `fs.readdir`: child names of a directory, `none` on error. -/
def fsReaddir (fs : FileSystem) (p : String) : Option (List String) :=
  match fsStat fs p with
  | some (.directory children) => some children
  | _ => none

/-- Outcome of opening and draining `fs.createReadStream` on a path. -/
inductive ReadResult
  | ok (bytes : List Nat)
  | enoent
  | eisdir
deriving DecidableEq

/-- Model of a whole `fs.createReadStream` read: the file's bytes when the
path is a regular file, ENOENT when it does not exist (the stat-to-open
race the source comments on), and a non-ENOENT error when it is a
directory. -/
def fsRead (fs : FileSystem) (p : String) : ReadResult :=
  match fsStat fs p with
  | some (.file bytes) => .ok bytes
  | some (.directory _) => .eisdir
  | none => .enoent

/-- Server configuration fields consumed by the request pipeline
(`IServerConfig` minus the transport-only host/port/TLS fields, which never
reach the pipeline).  `notFoundFile = ""` models the falsy "not
configured" value, as does `defaultFileName = ""`. -/
structure ServerConfig where
  path : String
  defaultFileName : String
  mimeMap : Option (List (String × String))
  notFoundFile : String
  directoryListing : Bool

/-- Built-in extension-to-content-type table of `createMimeMap`. -/
def defaultMimeEntries : List (String × String) :=
  [("css", "text/css"), ("gif", "image/gif"), ("html", "text/html"),
   ("ico", "image/x-icon"), ("jpeg", "image/jpeg"), ("jpg", "image/jpeg"),
   ("js", "application/javascript"), ("json", "application/json"),
   ("otf", "font/otf"), ("png", "image/png"), ("svg", "image/svg+xml"),
   ("ttf", "font/ttf"), ("txt", "text/plain"), ("woff", "font/woff"),
   ("woff2", "font/woff2"), (".", "application/octet-stream"),
   ("*", "application/octet-stream")]

/-- Model of `Object.assign(map, overwrites)` on string-keyed objects:
each overwrite replaces the entry with its key in place, or is appended
when the key is new. -/
def objectAssign (m overwrites : List (String × String)) : List (String × String) :=
  overwrites.foldl
    (fun acc kv =>
      if acc.any (fun p => p.1 = kv.1) then
        acc.map (fun p => if p.1 = kv.1 then kv else p)
      else acc ++ [kv])
    m

/-- Model of `createMimeMap`: built-in defaults merged with the caller's
overrides, overrides winning key-for-key. -/
def createMimeMap : Option (List (String × String)) → List (String × String)
  | none => defaultMimeEntries
  | some overwrites => objectAssign defaultMimeEntries overwrites

/-- Model of `getMimeType`: lowercase the extension, drop its first code
unit (`substring(1)`), map the empty result to the key `.`, then look the
key up, falling back to the `*` entry when the key is absent.  `none`
models the JS `undefined` that arises when neither key is present. -/
def getMimeType (mimeMap : List (String × String)) (fileExtension : String) : Option String :=
  let ext0 := jsSubstringFromOne (jsToLowerCase fileExtension)
  let ext := if ext0 = "" then "." else ext0
  match List.lookup ext mimeMap with
  | some v => some v
  | none => List.lookup "*" mimeMap

/-- JS truthiness of a possibly-absent string: `undefined` and `""` are
falsy (`if (!mimeType)`). -/
def jsTruthy : Option String → Bool
  | none => false
  | some s => s ≠ ""

/-- Model of `isHttpMethodSupported`: only `GET` is accepted. -/
def isHttpMethodSupported (httpMethod : Option String) : Bool :=
  httpMethod = some "GET"

/-- Model of `isUrlSafe`: an absent or empty URL is safe, otherwise the URL
is safe exactly when it does not contain the substring `..` anywhere (raw,
undecoded string; query and fragment included). -/
def isUrlSafe (urlValue : Option String) : Bool :=
  match urlValue with
  | none => true
  | some u => u = "" || !strContains u ".."

/-- Model of `getDesiredPath`: extract the URL's path component, decode it,
and join it onto the served base path. -/
def getDesiredPath (basePath : String) (requestUrl : Option String) : String :=
  let requestUrl := requestUrl.getD ""
  let urlPathName := urlParsePathname requestUrl
  let decodedUrl := jsDecodeURI urlPathName
  pathJoin basePath decodedUrl

/-- Server instance state after construction and `start`: the
configuration, the merged MIME map built in the constructor, and the base
path recorded by `start`. -/
structure ServerState where
  config : ServerConfig
  mimeMap : List (String × String)
  basePath : String

/-- Construction plus `start`: builds the MIME map and records the base
path from the configuration. -/
def mkServer (cfg : ServerConfig) : ServerState :=
  { config := cfg, mimeMap := createMimeMap cfg.mimeMap, basePath := cfg.path }

/-- Body written to the response: a literal text body from `response.end`,
or the streamed file bytes from `fileReadStream.pipe(response)`. -/
inductive ResponseBody
  | text (s : String)
  | bytes (b : List Nat)
deriving DecidableEq

/-- Mutable response fields the pipeline touches before ending the
response: the status code (Node defaults it to 200) and the Content-Type
header (unset unless `setHeader` ran). -/
structure ResponseState where
  statusCode : Nat := 200
  contentType : Option String := none
deriving DecidableEq

/-- A response that has been ended: final status, final Content-Type
header, and the body that was sent. -/
structure FinalResponse where
  statusCode : Nat
  contentType : Option String
  body : ResponseBody
deriving DecidableEq

/-- Lifecycle notifications the pipeline emits (the response-sent
notification carries only wall-clock duration and is not modelled). -/
inductive ServerEvent
  | requestArrived (requestId : Nat)
  | fileResolved (requestId : Nat) (path : String) (contentType : String)
deriving DecidableEq

/-- Result of running the pipeline with a fuel bound: `none` means the
not-found fallback was still re-entering `serveUrl` when the fuel ran out;
`some` carries the ended response and the emitted notifications. -/
abbrev ServeResult := Option (FinalResponse × List ServerEvent)

/-- One entry of a directory listing (`IDirectoryEntry`). -/
structure DirEntry where
  path : String
  isDirectory : Bool
deriving DecidableEq

/-- Entry collection loop of `respondDirectoryListing`: stat each child,
silently skipping children whose stat fails, and record the full child
path with its directory flag. -/
def listEntries (fs : FileSystem) (directory : String) (files : List String) : List DirEntry :=
  files.foldl
    (fun acc f =>
      match fsStat fs (pathJoin directory f) with
      | some e => acc ++ [{ path := pathJoin directory f, isDirectory := e.isDir }]
      | none => acc)
    []

/-- Model of `escapeForHtmlContent`: the source's chain of global
replacements, in source order — `<`, then `>`, then `&`, then the double
quote, then the apostrophe (character 39). -/
def escapeForHtmlContent (text : String) : String :=
  ⟨jsReplaceChar (Char.ofNat 39) "&#39;".data
    (jsReplaceChar (Char.ofNat 34) "&quot;".data
      (jsReplaceChar '&' "&amp;".data
        (jsReplaceChar '>' "&gt;".data
          (jsReplaceChar '<' "&lt;".data text.data))))⟩

/-- Model of `getEntriesHtml`: an unordered list whose items carry the
escaped href and the HTML-escaped visible text (directories get a trailing
slash on the visible text), with the template literal's exact
whitespace. -/
def getEntriesHtml (directoryEntries : List DirEntry) : String :=
  (directoryEntries.foldl
    (fun html entry =>
      let htmlEscapedName :=
        escapeForHtmlContent entry.path ++ (if entry.isDirectory then "/" else "")
      let elClass := if entry.isDirectory then "directory" else "file"
      html ++ "\n            <li class=\"" ++ elClass ++ "\"><a href=\"" ++
        jsEscape entry.path ++ "\">" ++ htmlEscapedName ++
        "</a></li>\n            ")
    "<ul class=\"list\">") ++ "</ul>"

/-- Model of JS `Array.prototype.sort()` as applied in `getDirectoryHtml`:
the default comparator stringifies every entry object to the same
`[object Object]` text, so the (stable) sort leaves the array unchanged. -/
def jsObjectSort (l : List DirEntry) : List DirEntry := l

/-- Model of `getDirectoryHtml`: directories first under a Folders heading
(omitted when there are none), then files under a Files heading, wrapped
in the source's complete HTML document template. -/
def getDirectoryHtml (directoryEntries : List DirEntry) : String :=
  let directories := jsObjectSort (directoryEntries.filter (·.isDirectory))
  let files := jsObjectSort (directoryEntries.filter (fun x => !x.isDirectory))
  let content :=
    (if directories.length > 0 then
      "<h2>Folders</h2>" ++ getEntriesHtml directories ++ "<hr />"
    else "") ++ "<h2>Files</h2>" ++ getEntriesHtml files
  "\n        <!doctype html>\n        <html lang=\"en\">\n        <head>\n          <meta charset=\"utf-8\">\n          <title>Directory listing</title>\n          <base href=\"/\">\n          <meta name=\"viewport\" content=\"width=device-width, initial-scale=1\">\n          <style>\n            body \x7b\n              font-size: larger;\n              font-family: monospace;\n            \x7d\n            .list \x7b\n              list-style-type: decimal;\n              line-height: 2em;\n            \x7d\n          </style>\n        </head>\n        <body>\n        " ++ content ++ "\n        </body>\n        </html>\n        "

/-- Model of `respondDirectoryListing`: enumerate the directory (500 on an
enumeration error), collect the stat-able children, and end the response
with the generated HTML.  Neither the status code nor the Content-Type
header is touched on the success path. -/
def respondDirectoryListing (fs : FileSystem) (directory : String) (st : ResponseState) : FinalResponse :=
  match fsReaddir fs directory with
  | none =>
    { statusCode := 500, contentType := st.contentType,
      body := .text "Internal Server Error" }
  | some files =>
    { statusCode := st.statusCode, contentType := st.contentType,
      body := .text (getDirectoryHtml (listEntries fs directory files)) }

/-- Model of `respondNotFound`, parameterised by the serve routine it
re-enters: when a not-found fallback file is configured (truthy) and
`existsSync` reports it present, the same serve routine is invoked on the
fallback path; otherwise the response ends with status 404 and the body
`Not Found` (headers already set on the response are left in place). -/
def respondNotFoundGen (serve : Option String → ResponseState → ServeResult)
    (cfg : ServerConfig) (fs : FileSystem) (st : ResponseState) : ServeResult :=
  if cfg.notFoundFile ≠ "" ∧ fsExistsSync fs cfg.notFoundFile then
    serve (some cfg.notFoundFile) st
  else
    some ({ statusCode := 404, contentType := st.contentType,
            body := .text "Not Found" }, [])

/-- Model of the tail of `serveUrl` from the MIME lookup on (source lines
132-153), parameterised by the not-found continuation: resolve the
content type from the extension (falsy means the extension is disabled and
the not-found path is taken), emit the file-resolved notification, set the
`Content-Type` header, and stream the file; a vanished file (ENOENT) takes
the not-found path, any other read error ends the response with 500. -/
def serveResolvedGen (notFound : ResponseState → ServeResult)
    (mimeMap : List (String × String)) (fs : FileSystem) (desiredPath : String)
    (requestId : Nat) (st : ResponseState) : ServeResult :=
  let mimeType := getMimeType mimeMap (extname desiredPath)
  if jsTruthy mimeType then
    let mt := mimeType.getD ""
    let st2 := { st with contentType := some mt }
    match fsRead fs desiredPath with
    | .ok b =>
      some ({ statusCode := st2.statusCode, contentType := st2.contentType,
              body := .bytes b },
            [.fileResolved requestId desiredPath mt])
    | .enoent =>
      (notFound st2).map (fun x => (x.1, .fileResolved requestId desiredPath mt :: x.2))
    | .eisdir =>
      some ({ statusCode := 500, contentType := st2.contentType,
              body := .text "Internal Server Error" },
            [.fileResolved requestId desiredPath mt])
  else
    notFound st

/-- Model of `serveUrl`, indexed by fuel consumed at each re-entry through
the not-found fallback: resolve the desired path, stat it (stat failure
takes the not-found path), serve a directory listing when the target is a
directory and listing is enabled, otherwise rewrite a directory target to
its default document (not-found when no default document is configured),
and continue with MIME resolution and streaming. -/
def serveUrl (S : ServerState) (fs : FileSystem) :
    Nat → Option String → Nat → ResponseState → ServeResult
  | 0, _, _, _ => none
  | fuel + 1, requestUrl, requestId, st =>
    let notFound : ResponseState → ServeResult := fun st2 =>
      respondNotFoundGen (fun u st3 => serveUrl S fs fuel u requestId st3) S.config fs st2
    let desiredPath := getDesiredPath S.basePath requestUrl
    match fsStat fs desiredPath with
    | none => notFound st
    | some entry =>
      if entry.isDir then
        if S.config.directoryListing then
          some (respondDirectoryListing fs desiredPath st, [])
        else if S.config.defaultFileName = "" then
          notFound st
        else
          serveResolvedGen notFound S.mimeMap fs
            (pathJoin desiredPath S.config.defaultFileName) requestId st
      else
        serveResolvedGen notFound S.mimeMap fs desiredPath requestId st

/-- The not-found responder tied to `serveUrl` at a given fuel bound. -/
def respondNotFound (S : ServerState) (fs : FileSystem) (fuel : Nat)
    (requestId : Nat) (st : ResponseState) : ServeResult :=
  respondNotFoundGen (fun u st2 => serveUrl S fs fuel u requestId st2) S.config fs st

/-- The MIME-resolution-and-streaming tail tied to `serveUrl` at a given
fuel bound (the continuation `serveUrl` runs after a default-document
rewrite or directly on a file target). -/
def serveResolved (S : ServerState) (fs : FileSystem) (fuel : Nat)
    (desiredPath : String) (requestId : Nat) (st : ResponseState) : ServeResult :=
  serveResolvedGen (fun st2 => respondNotFound S fs fuel requestId st2)
    S.mimeMap fs desiredPath requestId st

/-- Model of `requestCallback`: emit the request-arrived notification,
reject non-GET methods with 405, reject unsafe URLs through
`respondNotFound`, and otherwise serve the raw URL. -/
def requestCallback (S : ServerState) (fs : FileSystem) (fuel : Nat)
    (method requestUrl : Option String) (requestId : Nat) : ServeResult :=
  if !isHttpMethodSupported method then
    some ({ statusCode := 405, contentType := none,
            body := .text "Method Not Allowed" }, [.requestArrived requestId])
  else if !isUrlSafe requestUrl then
    (respondNotFound S fs fuel requestId {}).map
      (fun x => (x.1, .requestArrived requestId :: x.2))
  else
    (serveUrl S fs fuel requestUrl requestId {}).map
      (fun x => (x.1, .requestArrived requestId :: x.2))

/-- State of the per-request file-read handle referenced by the cleanup
handlers: never created, created and open, or already closed. -/
inductive StreamHandle
  | unset
  | openHandle
  | closedHandle
deriving DecidableEq

/-- Model of `closeReadStream`: `if (stream) stream.close()` — a no-op on
an unset handle, closes an open handle, and a further `close()` on an
already-closed Node read stream is a no-op. -/
def closeReadStream : StreamHandle → StreamHandle
  | .unset => .unset
  | .openHandle => .closedHandle
  | .closedHandle => .closedHandle

/-- Terminal signals whose handlers in `serveUrl` call `closeReadStream`:
request error, request close, and response error. -/
inductive TerminalEvent
  | requestError
  | requestClose
  | responseError
deriving DecidableEq

/-- Every one of the three terminal handlers runs `closeReadStream` on the
context's handle. -/
def handleTerminalEvent (s : StreamHandle) (_e : TerminalEvent) : StreamHandle :=
  closeReadStream s

/-- Handle state after a sequence of terminal signals has fired. -/
def runTerminalEvents (s : StreamHandle) (es : List TerminalEvent) : StreamHandle :=
  es.foldl handleTerminalEvent s

/-- Number of effectful `stream.close()` calls (transitions that actually
close an open handle) over a sequence of terminal signals. -/
def countCloses (s : StreamHandle) (es : List TerminalEvent) : Nat :=
  (es.foldl
    (fun acc _e =>
      (closeReadStream acc.1, acc.2 + (if acc.1 = .openHandle then 1 else 0)))
    (s, 0)).2

/-- MIME resolution as the specification words it, for comparison against
the source's `getMimeType`: normalise by lowercasing, stripping a leading
dot when one is present, and mapping the empty result to the key `.`;
then exact-key lookup first, falling back to the `*` entry. -/
def mimeResolveSpec (mimeMap : List (String × String)) (extension : String) : Option String :=
  let lowered := jsToLowerCase extension
  let stripped : String := if lowered.data.take 1 = ['.'] then ⟨lowered.data.drop 1⟩ else lowered
  let key := if stripped = "" then "." else stripped
  match List.lookup key mimeMap with
  | some v => some v
  | none => List.lookup "*" mimeMap

/-- Plain configuration serving `/srv` with no fallback and no listing. -/
def cfgPlain : ServerConfig :=
  { path := "/srv", defaultFileName := "index.html", mimeMap := none,
    notFoundFile := "", directoryListing := false }

/-- Filesystem with a single served text file. -/
def fsPlain : FileSystem := [("/srv/a.txt", .file [104, 105])]

/-- Configuration with a not-found fallback file that exists both at its
configured path (where `existsSync` checks it) and under the served root
(where `serveUrl` resolves it). -/
def cfgFallback : ServerConfig :=
  { path := "/srv", defaultFileName := "index.html", mimeMap := none,
    notFoundFile := "/nf.html", directoryListing := false }

/-- Filesystem for the fallback configuration. -/
def fsFallback : FileSystem :=
  [("/nf.html", .file [1]), ("/srv/nf.html", .file [10, 20])]

/-- Configuration whose not-found fallback exists but resolves to a
directory while directory listing is disabled and no default document is
configured: the fallback itself takes the not-found path again. -/
def cfgLoop : ServerConfig :=
  { path := "/srv", defaultFileName := "", mimeMap := none,
    notFoundFile := "/nf", directoryListing := false }

/-- Filesystem for the looping fallback configuration. -/
def fsLoop : FileSystem :=
  [("/nf", .directory []), ("/srv/nf", .directory [])]

/-- Configuration with the `ttf` extension explicitly disabled by an
empty-string MIME override. -/
def cfgTtf : ServerConfig :=
  { path := "/srv", defaultFileName := "index.html", mimeMap := some [("ttf", "")],
    notFoundFile := "", directoryListing := false }

/-- Filesystem holding an existing font file for the disabled-extension
example. -/
def fsTtf : FileSystem := [("/srv/fonts/a.ttf", .file [9, 9])]

/-- Configuration with directory listing enabled. -/
def cfgListing : ServerConfig :=
  { path := "/srv", defaultFileName := "index.html", mimeMap := none,
    notFoundFile := "", directoryListing := true }

/-- Filesystem with a listable directory. -/
def fsListing : FileSystem :=
  [("/srv/d", .directory ["x.txt"]), ("/srv/d/x.txt", .file [1])]

/-- Filesystem with a directory containing its default document. -/
def fsDocs : FileSystem :=
  [("/srv/docs", .directory ["index.html"]), ("/srv/docs/index.html", .file [3, 4])]

/-- Unfolding equation for `serveUrl` at positive fuel, with the re-entry
points expressed through the named `respondNotFound` and `serveResolved`
wrappers. -/
theorem serveUrl_succ (S : ServerState) (fs : FileSystem) (fuel : Nat)
    (requestUrl : Option String) (requestId : Nat) (st : ResponseState) :
    serveUrl S fs (fuel + 1) requestUrl requestId st =
      match fsStat fs (getDesiredPath S.basePath requestUrl) with
      | none => respondNotFound S fs fuel requestId st
      | some entry =>
        if entry.isDir then
          if S.config.directoryListing then
            some (respondDirectoryListing fs (getDesiredPath S.basePath requestUrl) st, [])
          else if S.config.defaultFileName = "" then
            respondNotFound S fs fuel requestId st
          else
            serveResolved S fs fuel
              (pathJoin (getDesiredPath S.basePath requestUrl) S.config.defaultFileName)
              requestId st
        else
          serveResolved S fs fuel (getDesiredPath S.basePath requestUrl) requestId st := rfl

/-- A URL containing `..` is reported unsafe. -/
theorem isUrlSafe_false_of_contains (url : String) (h : strContains url ".." = true) :
    isUrlSafe (some url) = false := by
  have hne : url ≠ "" := by
    intro he
    subst he
    exact absurd h (by decide)
  simp [isUrlSafe, hne, h]

/-- Closing is idempotent and a closed or unset handle is left alone. -/
theorem closeReadStream_idem (s : StreamHandle) :
    closeReadStream (closeReadStream s) = closeReadStream s := by
  cases s <;> rfl

/-- A closed handle stays closed under any further terminal signals. -/
theorem runTerminalEvents_closed (es : List TerminalEvent) :
    runTerminalEvents .closedHandle es = .closedHandle := by
  induction es with
  | nil => rfl
  | cons e es ih => simpa [runTerminalEvents, handleTerminalEvent, closeReadStream] using ih

/-- Folding the close-counting step from a non-open handle performs no
effectful close. -/
theorem countCloses_step_stable (s : StreamHandle) (hs : closeReadStream s = s)
    (es : List TerminalEvent) (n : Nat) :
    es.foldl
      (fun acc _e => (closeReadStream acc.1, acc.2 + (if acc.1 = .openHandle then 1 else 0)))
      (s, n) = (s, n) := by
  induction es with
  | nil => rfl
  | cons e es ih =>
    have hno : s ≠ .openHandle := by
      intro h
      rw [h] at hs
      exact absurd hs (by decide)
    simpa [List.foldl, hs, hno] using ih

/-- C3: for every request, whichever terminal signal (request error,
request close, response error) fires first, the open file-read handle (if
any) is closed; the close operation is idempotent and safe on an unset
handle, and over any non-empty sequence of terminal signals an open handle
undergoes exactly one effectful close. -/
theorem read_handle_closed_exactly_once (s : StreamHandle)
    (es : List TerminalEvent) (hne : es ≠ []) :
    closeReadStream (closeReadStream s) = closeReadStream s ∧
    closeReadStream .unset = .unset ∧
    runTerminalEvents .openHandle es = .closedHandle ∧
    countCloses .openHandle es = 1 ∧
    countCloses .closedHandle es = 0 ∧
    countCloses .unset es = 0 := by
  refine ⟨closeReadStream_idem s, rfl, ?_, ?_, ?_, ?_⟩
  · cases es with
    | nil => exact absurd rfl hne
    | cons e es' =>
      show runTerminalEvents (handleTerminalEvent .openHandle e) es' = .closedHandle
      exact runTerminalEvents_closed es'
  · cases es with
    | nil => exact absurd rfl hne
    | cons e es' =>
      show (es'.foldl _ (StreamHandle.closedHandle, 1)).2 = 1
      rw [countCloses_step_stable .closedHandle rfl es' 1]
  · show (es.foldl _ (StreamHandle.closedHandle, 0)).2 = 0
    rw [countCloses_step_stable .closedHandle rfl es 0]
  · show (es.foldl _ (StreamHandle.unset, 0)).2 = 0
    rw [countCloses_step_stable .unset rfl es 0]

/-- Witness for `read_handle_closed_exactly_once` at a concrete event
sequence: a request error followed by a request close. -/
theorem read_handle_closed_exactly_once_witness :
    closeReadStream (closeReadStream .openHandle) = closeReadStream .openHandle ∧
    closeReadStream .unset = .unset ∧
    runTerminalEvents .openHandle [.requestError, .requestClose] = .closedHandle ∧
    countCloses .openHandle [.requestError, .requestClose] = 1 ∧
    countCloses .closedHandle [.requestError, .requestClose] = 0 ∧
    countCloses .unset [.requestError, .requestClose] = 0 :=
  read_handle_closed_exactly_once .openHandle [.requestError, .requestClose] (by decide)

/-- With the looping fallback configuration, the not-found responder never
produces a response at any fuel bound: the configured fallback exists, so
it re-enters `serveUrl`, whose target is a directory with neither listing
nor default document, which takes the not-found path again, forever. -/
theorem respondNotFound_loop : ∀ fuel requestId st,
    respondNotFound (mkServer cfgLoop) fsLoop fuel requestId st = none := by
  intro fuel
  induction fuel with
  | zero => intro requestId st; rfl
  | succ n ih =>
    intro requestId st
    have step : respondNotFound (mkServer cfgLoop) fsLoop (n + 1) requestId st =
        respondNotFound (mkServer cfgLoop) fsLoop n requestId st := rfl
    rw [step]
    exact ih requestId st

/-- C4 (code bug): with a configured not-found fallback that exists on disk
but resolves to a directory while listing is disabled and no default
document is configured, request handling never reaches a terminal response
— the fallback re-enters the serve routine unboundedly (the result stays
`none` no matter how much fuel is granted), contradicting the claimed
termination guarantee. -/
theorem notfound_fallback_nonterminating : ∀ fuel requestId,
    requestCallback (mkServer cfgLoop) fsLoop fuel (some "GET") (some "/missing")
      requestId = none := by
  intro fuel requestId
  have h0 : requestCallback (mkServer cfgLoop) fsLoop fuel (some "GET") (some "/missing") requestId =
      (serveUrl (mkServer cfgLoop) fsLoop fuel (some "/missing") requestId {}).map
        (fun x => (x.1, .requestArrived requestId :: x.2)) := rfl
  rw [h0]
  cases fuel with
  | zero => rfl
  | succ n =>
    have h1 : serveUrl (mkServer cfgLoop) fsLoop (n + 1) (some "/missing") requestId {} =
        respondNotFound (mkServer cfgLoop) fsLoop n requestId {} := rfl
    rw [h1, respondNotFound_loop n requestId]
    rfl

/-- C7 (code bug): `escapeForHtmlContent` runs the ampersand replacement
after the angle-bracket replacements, so a source `<` renders as the
double-escaped `&amp;lt;` (and `>` as `&amp;gt;`) instead of being
replaced by its entity exactly once, both standalone and in a rendered
list item's visible text. -/
theorem html_escape_double_escapes :
    escapeForHtmlContent "<a&b>" = "&amp;lt;a&amp;b&amp;gt;" ∧
    getEntriesHtml [{ path := "<", isDirectory := false }] =
      "<ul class=\"list\">\n            <li class=\"file\"><a href=\"%3C\">&amp;lt;</a></li>\n            </ul>" :=
  ⟨rfl, rfl⟩

/-- Serving a resolved path that stats as a regular file with a non-empty
content type ends the response with the untouched status code, the mapped
Content-Type, and the file's bytes as body. -/
theorem serveUrl_file_ok (S : ServerState) (fs : FileSystem) (fuel : Nat)
    (requestUrl : Option String) (requestId : Nat) (st : ResponseState)
    (b : List Nat) (ct : String)
    (hstat : fsStat fs (getDesiredPath S.basePath requestUrl) = some (.file b))
    (hmime : getMimeType S.mimeMap (extname (getDesiredPath S.basePath requestUrl)) = some ct)
    (hct : ct ≠ "") :
    serveUrl S fs (fuel + 1) requestUrl requestId st =
      some ({ statusCode := st.statusCode, contentType := some ct, body := .bytes b },
        [.fileResolved requestId (getDesiredPath S.basePath requestUrl) ct]) := by
  have h1 : serveUrl S fs (fuel + 1) requestUrl requestId st =
      serveResolved S fs fuel (getDesiredPath S.basePath requestUrl) requestId st := by
    rw [serveUrl_succ, hstat]
    rfl
  have hread : fsRead fs (getDesiredPath S.basePath requestUrl) = .ok b := by
    unfold fsRead
    rw [hstat]
  have ht : jsTruthy (some ct) = true := by
    simp [jsTruthy, hct]
  rw [h1]
  unfold serveResolved serveResolvedGen
  simp only [hmime, ht, hread, if_true, Option.getD_some]

/-- C1: a GET request whose safe URL resolves to an existing regular file
whose extension maps to a non-empty content type is answered with status
200, the mapped Content-Type header, and a body byte-for-byte identical to
the file's on-disk contents. -/
theorem serve_existing_file_roundtrip (S : ServerState) (fs : FileSystem)
    (fuel : Nat) (url : String) (requestId : Nat) (b : List Nat) (ct : String)
    (hsafe : isUrlSafe (some url) = true)
    (hstat : fsStat fs (getDesiredPath S.basePath (some url)) = some (.file b))
    (hmime : getMimeType S.mimeMap (extname (getDesiredPath S.basePath (some url))) = some ct)
    (hct : ct ≠ "") :
    requestCallback S fs (fuel + 1) (some "GET") (some url) requestId =
      some ({ statusCode := 200, contentType := some ct, body := .bytes b },
        [.requestArrived requestId,
         .fileResolved requestId (getDesiredPath S.basePath (some url)) ct]) := by
  have hcb : requestCallback S fs (fuel + 1) (some "GET") (some url) requestId =
      (serveUrl S fs (fuel + 1) (some url) requestId {}).map
        (fun x => (x.1, .requestArrived requestId :: x.2)) := by
    unfold requestCallback
    rw [hsafe]
    rfl
  rw [hcb, serveUrl_file_ok S fs fuel (some url) requestId {} b ct hstat hmime hct]
  rfl

/-- Witness for `serve_existing_file_roundtrip`: serving `/a.txt` from the
plain configuration returns its two bytes as `text/plain`. -/
theorem serve_existing_file_roundtrip_witness :
    requestCallback (mkServer cfgPlain) fsPlain 1 (some "GET") (some "/a.txt") 1 =
      some ({ statusCode := 200, contentType := some "text/plain", body := .bytes [104, 105] },
        [.requestArrived 1, .fileResolved 1 "/srv/a.txt" "text/plain"]) :=
  serve_existing_file_roundtrip (mkServer cfgPlain) fsPlain 0 "/a.txt" 1 [104, 105]
    "text/plain" (by decide) (by decide) (by decide) (by decide)

/-- Counterexample to C2: with a configured not-found fallback file that
exists, a request whose URL contains `..` is not answered 404 `Not Found`
— the rejection path invokes `respondNotFound`, which performs the
fallback-file lookup and serves the fallback with status 200. -/
theorem dotdot_url_serves_fallback_counterexample :
    requestCallback (mkServer cfgFallback) fsFallback 2 (some "GET") (some "/..") 1 =
      some ({ statusCode := 200, contentType := some "text/html", body := .bytes [10, 20] },
        [.requestArrived 1, .fileResolved 1 "/srv/nf.html" "text/html"]) ∧
    (requestCallback (mkServer cfgFallback) fsFallback 2 (some "GET") (some "/..") 1).map
        (fun x => x.1.statusCode) ≠ some 404 := by
  constructor
  · rfl
  · decide

/-- C2 as amended: a request whose raw URL contains `..` is rejected
directly through `respondNotFound` (so the fallback-file lookup IS
performed on this path when a fallback is configured); the response is
status 404 with body `Not Found`, regardless of whether a matching file
exists, exactly when no fallback file is configured or the configured one
does not exist. -/
theorem dotdot_url_notfound_path (S : ServerState) (fs : FileSystem)
    (fuel requestId : Nat) (url : String)
    (hdd : strContains url ".." = true) :
    requestCallback S fs fuel (some "GET") (some url) requestId =
      (respondNotFound S fs fuel requestId {}).map
        (fun x => (x.1, .requestArrived requestId :: x.2)) ∧
    (S.config.notFoundFile = "" ∨ fsExistsSync fs S.config.notFoundFile = false →
      requestCallback S fs fuel (some "GET") (some url) requestId =
        some ({ statusCode := 404, contentType := none, body := .text "Not Found" },
          [.requestArrived requestId])) := by
  have hfalse := isUrlSafe_false_of_contains url hdd
  have hmain : requestCallback S fs fuel (some "GET") (some url) requestId =
      (respondNotFound S fs fuel requestId {}).map
        (fun x => (x.1, .requestArrived requestId :: x.2)) := by
    unfold requestCallback
    rw [hfalse]
    rfl
  refine ⟨hmain, fun hcase => ?_⟩
  rw [hmain]
  unfold respondNotFound respondNotFoundGen
  have hcond : ¬(S.config.notFoundFile ≠ "" ∧ fsExistsSync fs S.config.notFoundFile) := by
    rcases hcase with h | h
    · exact fun hc => hc.1 h
    · exact fun hc => by
        have := hc.2
        rw [h] at this
        cases this
  rw [if_neg hcond]
  rfl

/-- Witness for `dotdot_url_notfound_path`: with no fallback configured, a
`..` URL yields the literal 404 response. -/
theorem dotdot_url_notfound_path_witness :
    requestCallback (mkServer cfgPlain) fsPlain 1 (some "GET") (some "/..") 5 =
      some ({ statusCode := 404, contentType := none, body := .text "Not Found" },
        [.requestArrived 5]) :=
  (dotdot_url_notfound_path (mkServer cfgPlain) fsPlain 1 5 "/.." (by decide)).2
    (Or.inl rfl)

/-- C10 (implicit): the safety gate tests the entire raw URL while path
resolution later discards query and fragment; a URL whose query contains
`..` is rejected through the not-found path even though its path component
resolves to an existing servable file that `serveUrl` would answer with
200. -/
theorem query_dotdot_rejected (S : ServerState) (fs : FileSystem)
    (fuel : Nat) (url : String) (requestId : Nat) (b : List Nat) (ct : String)
    (hdots : strContains url ".." = true)
    (hstat : fsStat fs (getDesiredPath S.basePath (some url)) = some (.file b))
    (hmime : getMimeType S.mimeMap (extname (getDesiredPath S.basePath (some url))) = some ct)
    (hct : ct ≠ "") :
    requestCallback S fs (fuel + 1) (some "GET") (some url) requestId =
      (respondNotFound S fs (fuel + 1) requestId {}).map
        (fun x => (x.1, .requestArrived requestId :: x.2)) ∧
    serveUrl S fs (fuel + 1) (some url) requestId {} =
      some ({ statusCode := 200, contentType := some ct, body := .bytes b },
        [.fileResolved requestId (getDesiredPath S.basePath (some url)) ct]) := by
  constructor
  · have hfalse := isUrlSafe_false_of_contains url hdots
    unfold requestCallback
    rw [hfalse]
    rfl
  · exact serveUrl_file_ok S fs fuel (some url) requestId {} b ct hstat hmime hct

/-- Witness for `query_dotdot_rejected`: `/a.txt?x=..` is rejected while
`/a.txt` exists and would be served. -/
theorem query_dotdot_rejected_witness :
    (requestCallback (mkServer cfgPlain) fsPlain 1 (some "GET") (some "/a.txt?x=..") 2 =
      (respondNotFound (mkServer cfgPlain) fsPlain 1 2 {}).map
        (fun x => (x.1, .requestArrived 2 :: x.2))) ∧
    serveUrl (mkServer cfgPlain) fsPlain 1 (some "/a.txt?x=..") 2 {} =
      some ({ statusCode := 200, contentType := some "text/plain", body := .bytes [104, 105] },
        [.fileResolved 2 "/srv/a.txt" "text/plain"]) :=
  query_dotdot_rejected (mkServer cfgPlain) fsPlain 0 "/a.txt?x=.." 2 [104, 105]
    "text/plain" (by decide) (by decide) (by decide) (by decide)

/-- Counterexample to C5: on the extension string `ttf` (no leading dot),
`getMimeType` drops the first character and resolves `tf` through the `*`
fallback, while the claimed normalisation (strip a leading dot only)
would resolve the exact key `ttf`. -/
theorem mime_normalization_counterexample :
    getMimeType (createMimeMap none) "ttf" = some "application/octet-stream" ∧
    mimeResolveSpec (createMimeMap none) "ttf" = some "font/ttf" ∧
    getMimeType (createMimeMap none) "ttf" ≠ mimeResolveSpec (createMimeMap none) "ttf" :=
  ⟨rfl, rfl, by decide⟩

/-- C5 as amended: MIME resolution lowercases the extension and strips its
first character (for `path.extname`-shaped inputs — empty or dot-led —
this agrees with stripping the leading dot, mapping empty to the key `.`),
returns the exact-key mapping when present (even if empty) and the `*`
mapping otherwise; whenever the resolved value is empty or absent the
request takes the not-found path, as in the `ttf`-disabled example. -/
theorem mime_resolution_amended :
    (∀ (m : List (String × String)) (cs : List Char),
      getMimeType m ⟨'.' :: cs⟩ = mimeResolveSpec m ⟨'.' :: cs⟩) ∧
    (∀ m : List (String × String), getMimeType m "" = mimeResolveSpec m "") ∧
    (∀ (S : ServerState) (fs : FileSystem) (fuel : Nat) (p : String)
        (requestId : Nat) (st : ResponseState),
      jsTruthy (getMimeType S.mimeMap (extname p)) = false →
      serveResolved S fs fuel p requestId st = respondNotFound S fs fuel requestId st) ∧
    requestCallback (mkServer cfgTtf) fsTtf 1 (some "GET") (some "/fonts/a.ttf") 7 =
      some ({ statusCode := 404, contentType := none, body := .text "Not Found" },
        [.requestArrived 7]) := by
  refine ⟨?_, ?_, ?_, by decide⟩
  · intro m cs
    have hdot : Char.toLower '.' = '.' := rfl
    unfold getMimeType mimeResolveSpec jsToLowerCase jsSubstringFromOne
    simp [hdot]
  · intro m
    rfl
  · intro S fs fuel p requestId st h
    unfold serveResolved serveResolvedGen
    simp only [h, Bool.false_eq_true, if_false]

/-- Witness for `mime_resolution_amended` at concrete inputs: the dot-led
extension `.ttf`, and the disabled-extension hop to the not-found path. -/
theorem mime_resolution_amended_witness :
    getMimeType defaultMimeEntries ⟨'.' :: ['t', 't', 'f']⟩ =
      mimeResolveSpec defaultMimeEntries ⟨'.' :: ['t', 't', 'f']⟩ ∧
    serveResolved (mkServer cfgTtf) fsTtf 0 "/srv/fonts/a.ttf" 3 {} =
      respondNotFound (mkServer cfgTtf) fsTtf 0 3 {} :=
  ⟨mime_resolution_amended.1 defaultMimeEntries ['t', 't', 'f'],
   mime_resolution_amended.2.2.1 (mkServer cfgTtf) fsTtf 0 "/srv/fonts/a.ttf" 3 {}
     (by decide)⟩

/-- Counterexample to C6: a successful directory listing is answered with
status 200 but with no Content-Type header at all — the source never sets
`text/html` on this path. -/
theorem directory_listing_no_content_type_counterexample :
    (requestCallback (mkServer cfgListing) fsListing 1 (some "GET") (some "/d") 1).map
        (fun x => (x.1.statusCode, x.1.contentType)) = some (200, none) ∧
    (requestCallback (mkServer cfgListing) fsListing 1 (some "GET") (some "/d") 1).map
        (fun x => x.1.contentType) ≠ some (some "text/html") :=
  ⟨rfl, by decide⟩

/-- C6 as amended: a GET request whose safe URL resolves to an existing
directory while listing is enabled ends the response with status 200 and
the generated HTML listing as body, leaving the Content-Type header
unset. -/
theorem directory_listing_response_amended (S : ServerState) (fs : FileSystem)
    (fuel : Nat) (url : String) (requestId : Nat) (d : List String)
    (hsafe : isUrlSafe (some url) = true)
    (hstat : fsStat fs (getDesiredPath S.basePath (some url)) = some (.directory d))
    (hdl : S.config.directoryListing = true) :
    requestCallback S fs (fuel + 1) (some "GET") (some url) requestId =
      some ({ statusCode := 200, contentType := none,
              body := .text (getDirectoryHtml
                (listEntries fs (getDesiredPath S.basePath (some url)) d)) },
        [.requestArrived requestId]) := by
  have hcb : requestCallback S fs (fuel + 1) (some "GET") (some url) requestId =
      (serveUrl S fs (fuel + 1) (some url) requestId {}).map
        (fun x => (x.1, .requestArrived requestId :: x.2)) := by
    unfold requestCallback
    rw [hsafe]
    rfl
  have h1 : serveUrl S fs (fuel + 1) (some url) requestId {} =
      some (respondDirectoryListing fs (getDesiredPath S.basePath (some url)) {}, []) := by
    rw [serveUrl_succ, hstat, hdl]
    rfl
  have h2 : respondDirectoryListing fs (getDesiredPath S.basePath (some url)) {} =
      { statusCode := 200, contentType := none,
        body := .text (getDirectoryHtml
          (listEntries fs (getDesiredPath S.basePath (some url)) d)) } := by
    unfold respondDirectoryListing
    have hrd : fsReaddir fs (getDesiredPath S.basePath (some url)) = some d := by
      unfold fsReaddir
      rw [hstat]
    rw [hrd]
  rw [hcb, h1, h2]
  rfl

/-- Witness for `directory_listing_response_amended` on the concrete
listable directory `/d`. -/
theorem directory_listing_response_amended_witness :
    requestCallback (mkServer cfgListing) fsListing 1 (some "GET") (some "/d") 1 =
      some ({ statusCode := 200, contentType := none,
              body := .text (getDirectoryHtml (listEntries fsListing "/srv/d" ["x.txt"])) },
        [.requestArrived 1]) :=
  directory_listing_response_amended (mkServer cfgListing) fsListing 0 "/d" 1 ["x.txt"]
    (by decide) (by decide) rfl

/-- C8: a GET request whose safe URL resolves to an existing directory is
served the listing when listing is enabled (the default document name is
ignored); otherwise an empty default document name sends it to the
not-found path, and a non-empty one rewrites the target to
`directory/defaultFileName` and continues through MIME resolution and
streaming as if that file had been requested. -/
theorem directory_request_branching (S : ServerState) (fs : FileSystem)
    (fuel : Nat) (requestUrl : Option String) (requestId : Nat)
    (st : ResponseState) (d : List String)
    (hstat : fsStat fs (getDesiredPath S.basePath requestUrl) = some (.directory d)) :
    (S.config.directoryListing = true →
      serveUrl S fs (fuel + 1) requestUrl requestId st =
        some (respondDirectoryListing fs (getDesiredPath S.basePath requestUrl) st, [])) ∧
    (S.config.directoryListing = false → S.config.defaultFileName = "" →
      serveUrl S fs (fuel + 1) requestUrl requestId st =
        respondNotFound S fs fuel requestId st) ∧
    (S.config.directoryListing = false → S.config.defaultFileName ≠ "" →
      serveUrl S fs (fuel + 1) requestUrl requestId st =
        serveResolved S fs fuel
          (pathJoin (getDesiredPath S.basePath requestUrl) S.config.defaultFileName)
          requestId st) := by
  refine ⟨fun hdl => ?_, fun hdl hdf => ?_, fun hdl hdf => ?_⟩
  · rw [serveUrl_succ, hstat, hdl]
    rfl
  · rw [serveUrl_succ, hstat, hdl, hdf]
    rfl
  · rw [serveUrl_succ, hstat, hdl]
    show (if S.config.defaultFileName = "" then _ else _) = _
    rw [if_neg hdf]

/-- Witness for `directory_request_branching`: the listing branch on the
concrete directory `/d`. -/
theorem directory_request_branching_witness :
    serveUrl (mkServer cfgListing) fsListing 1 (some "/d") 4 {} =
      some (respondDirectoryListing fsListing "/srv/d" {}, []) :=
  (directory_request_branching (mkServer cfgListing) fsListing 0 (some "/d") 4 {}
    ["x.txt"] (by decide)).1 rfl

/-- Prepending a notification to the event list of a result does not change
its response component. -/
theorem map_fst_prepend (o : ServeResult) (e : ServerEvent) :
    (o.map (fun x => (x.1, e :: x.2))).map Prod.fst = o.map Prod.fst := by
  cases o <;> rfl

/-- The response component of `respondNotFoundGen` is unchanged when its
serve continuation is replaced by one with the same response component. -/
theorem respondNotFoundGen_fst (s1 s2 : Option String → ResponseState → ServeResult)
    (cfg : ServerConfig) (fs : FileSystem) (st : ResponseState)
    (h : ∀ u st2, (s1 u st2).map Prod.fst = (s2 u st2).map Prod.fst) :
    (respondNotFoundGen s1 cfg fs st).map Prod.fst =
      (respondNotFoundGen s2 cfg fs st).map Prod.fst := by
  unfold respondNotFoundGen
  split
  · exact h _ _
  · rfl

/-- The response component of `serveResolvedGen` does not depend on the
request identifier, given not-found continuations with the same response
component. -/
theorem serveResolvedGen_fst (n1 n2 : ResponseState → ServeResult)
    (mimeMap : List (String × String)) (fs : FileSystem) (p : String)
    (id1 id2 : Nat) (st : ResponseState)
    (h : ∀ st2, (n1 st2).map Prod.fst = (n2 st2).map Prod.fst) :
    (serveResolvedGen n1 mimeMap fs p id1 st).map Prod.fst =
      (serveResolvedGen n2 mimeMap fs p id2 st).map Prod.fst := by
  unfold serveResolvedGen
  by_cases hc : jsTruthy (getMimeType mimeMap (extname p)) = true
  · simp only [hc, if_true]
    cases hr : fsRead fs p with
    | ok b => rfl
    | enoent =>
      rw [map_fst_prepend, map_fst_prepend]
      exact h _
    | eisdir => rfl
  · simp only [hc, if_false]
    exact h st

/-- The response component of `serveUrl` does not depend on the request
identifier (which only tags the emitted notifications). -/
theorem serveUrl_fst_requestId_invariant (S : ServerState) (fs : FileSystem) :
    ∀ (fuel : Nat) (requestUrl : Option String) (id1 id2 : Nat) (st : ResponseState),
      (serveUrl S fs fuel requestUrl id1 st).map Prod.fst =
        (serveUrl S fs fuel requestUrl id2 st).map Prod.fst := by
  intro fuel
  induction fuel with
  | zero => intro u id1 id2 st; rfl
  | succ n ih =>
    intro u id1 id2 st
    have hnf : ∀ st2 : ResponseState,
        (respondNotFound S fs n id1 st2).map Prod.fst =
          (respondNotFound S fs n id2 st2).map Prod.fst := by
      intro st2
      unfold respondNotFound
      exact respondNotFoundGen_fst _ _ S.config fs st2 (fun u2 st3 => ih u2 id1 id2 st3)
    rw [serveUrl_succ, serveUrl_succ]
    cases hstat : fsStat fs (getDesiredPath S.basePath u) with
    | none => exact hnf st
    | some entry =>
      cases entry with
      | file b =>
        show (serveResolved S fs n (getDesiredPath S.basePath u) id1 st).map Prod.fst =
          (serveResolved S fs n (getDesiredPath S.basePath u) id2 st).map Prod.fst
        unfold serveResolved
        exact serveResolvedGen_fst _ _ S.mimeMap fs _ id1 id2 st hnf
      | directory d =>
        show ((if S.config.directoryListing = true then _ else _ : ServeResult)).map Prod.fst = _
        by_cases hdl : S.config.directoryListing = true
        · simp only [hdl, if_true]
          rfl
        · simp only [hdl, if_false]
          by_cases hdf : S.config.defaultFileName = ""
          · simp only [hdf, if_pos rfl]
            exact hnf st
          · simp only [if_neg hdf]
            unfold serveResolved
            exact serveResolvedGen_fst _ _ S.mimeMap fs _ id1 id2 st hnf

/-- C9: for a fixed configuration and unchanged filesystem, issuing the
same GET request twice yields identical response status and identical
Content-Type — the differing request identifiers influence only the
emitted notifications, never status or content type. -/
theorem get_twice_same_status_and_type (S : ServerState) (fs : FileSystem)
    (fuel : Nat) (requestUrl : Option String) (id1 id2 : Nat) :
    (requestCallback S fs fuel (some "GET") requestUrl id1).map
        (fun x => (x.1.statusCode, x.1.contentType)) =
      (requestCallback S fs fuel (some "GET") requestUrl id2).map
        (fun x => (x.1.statusCode, x.1.contentType)) := by
  have key : (requestCallback S fs fuel (some "GET") requestUrl id1).map Prod.fst =
      (requestCallback S fs fuel (some "GET") requestUrl id2).map Prod.fst := by
    unfold requestCallback
    cases hu : isUrlSafe requestUrl with
    | false =>
      show ((respondNotFound S fs fuel id1 {}).map
          (fun x => (x.1, ServerEvent.requestArrived id1 :: x.2))).map Prod.fst =
        ((respondNotFound S fs fuel id2 {}).map
          (fun x => (x.1, ServerEvent.requestArrived id2 :: x.2))).map Prod.fst
      rw [map_fst_prepend, map_fst_prepend]
      unfold respondNotFound
      exact respondNotFoundGen_fst _ _ S.config fs {}
        (fun u2 st3 => serveUrl_fst_requestId_invariant S fs fuel u2 id1 id2 st3)
    | true =>
      show ((serveUrl S fs fuel requestUrl id1 {}).map
          (fun x => (x.1, ServerEvent.requestArrived id1 :: x.2))).map Prod.fst =
        ((serveUrl S fs fuel requestUrl id2 {}).map
          (fun x => (x.1, ServerEvent.requestArrived id2 :: x.2))).map Prod.fst
      rw [map_fst_prepend, map_fst_prepend]
      exact serveUrl_fst_requestId_invariant S fs fuel requestUrl id1 id2 {}
  have hcomp := congrArg
    (Option.map (fun r : FinalResponse => (r.statusCode, r.contentType))) key
  rw [Option.map_map, Option.map_map] at hcomp
  exact hcomp
